import Mathlib

/-!
Verification of the GG.deals Discord price-alert bot (`src/bot.py`).

The bot keeps a persisted watchlist of games (keyed by Steam app id), each
entry holding the last-observed retail/keyshop prices as decimal strings.
A periodic task (`price_checker`) batch-fetches fresh prices, compares them
to the stored baseline, sends one alert embed per game whose price dropped,
updates the baseline in memory, and saves the whole watchlist once at the
end of the cycle.

This file shallow-embeds the relevant Python functions:
  * `parseDecimal` models Python `float(...)` restricted to plain decimal
    literals (optional sign, digits, at most one dot); on anything else it
    returns `none`, modelling the `ValueError` branch of `bot.py`.
  * `truthy` models Python truthiness on optional strings (`None` and `""`
    are falsy).
  * `retailAlerts` / `keyshopAlerts` / `evalGame` embed the per-game body
    of `price_checker` (bot.py lines 309-372).
  * `processGame`, `processBatch`, `runChunks`, `chunks`, `price_checker`
    embed the full cycle including batching, the inter-batch delay and the
    final save, as a trace of `Event`s.
  * `watch_game` / `unwatch_game` embed the corresponding bot commands.
-/

/-- Python truthiness for an optional price string: `None` and `""` are
falsy, every other string is truthy (models `if new_retail and old_retail:`
and `if p.get("historicalRetail"):`). -/
def truthy : Option String → Bool
  | none => false
  | some s => !(s == "")

/-- Numeric value of a list of decimal digit characters (most significant
first). -/
def digitsVal (cs : List Char) : Nat :=
  cs.foldl (fun acc c => 10 * acc + (c.toNat - 48)) 0

/-- All characters are decimal digits. -/
def allDigits (cs : List Char) : Bool :=
  cs.all Char.isDigit

/-- Exact value of a decimal price literal: `mant / 10 ^ scale`.
Represented unnormalized so that equality and comparison are kernel
computations on integers. -/
structure Decimal where
  mant : Int
  scale : Nat
deriving DecidableEq, Repr

/-- The rational value of a parsed decimal. -/
def Decimal.toRat (d : Decimal) : ℚ := (d.mant : ℚ) / 10 ^ d.scale

/-- Executable strict comparison of decimal values, by
cross-multiplication. -/
def Decimal.blt (a b : Decimal) : Bool :=
  decide (a.mant * 10 ^ b.scale < b.mant * 10 ^ a.scale)

/-- Parse an unsigned decimal literal: digits with at most one dot, at
least one digit overall (`"9"`, `"9.99"`, `"9."`, `".5"`). -/
def parseUnsigned (cs : List Char) : Option Decimal :=
  let intPart := cs.takeWhile (fun c => c ≠ '.')
  let rest := cs.dropWhile (fun c => c ≠ '.')
  match rest with
  | [] =>
      if intPart ≠ [] ∧ allDigits intPart then some ⟨digitsVal intPart, 0⟩ else none
  | '.' :: frac =>
      if allDigits intPart ∧ allDigits frac ∧ (intPart ≠ [] ∨ frac ≠ []) then
        some ⟨digitsVal intPart * 10 ^ frac.length + digitsVal frac, frac.length⟩
      else none
  | _ => none

/-- Model of Python `float(s)` on decimal price strings: returns the
exact decimal value, or `none` when the string is not a decimal literal
(the `except ValueError: pass` branch of `bot.py`). -/
def parseDecimal (s : String) : Option Decimal :=
  match s.data with
  | '-' :: rest => (parseUnsigned rest).map (fun d => ⟨-d.mant, d.scale⟩)
  | '+' :: rest => parseUnsigned rest
  | cs => parseUnsigned cs

/-- The per-channel price fields of a fetched GG.deals record
(`game_data.get("prices", {})`); `none` models an absent or `null`
JSON field. -/
structure PriceInfo where
  currentRetail : Option String
  currentKeyshops : Option String
  historicalRetail : Option String
  historicalKeyshops : Option String
  currency : Option String
deriving DecidableEq, Repr

/-- A fetched GG.deals record for one game (`body["data"][app_id]`). -/
structure GameData where
  title : Option String
  url : Option String
  prices : PriceInfo
deriving DecidableEq, Repr

/-- One stored watchlist entry (`data["games"][app_id]` in
`data/watchlist.json`). -/
structure StoredEntry where
  name : String
  last_retail : Option String
  last_keyshops : Option String
  historical_retail : Option String
  historical_keyshops : Option String
  currency : Option String
  url : Option String
  added_by : String
deriving DecidableEq, Repr

/-- The persisted watchlist `data["games"]`, as an association list keyed
by Steam app id (Python dicts preserve insertion order). -/
abbrev Watchlist := List (String × StoredEntry)

/-- Dict lookup `data["games"].get(app_id)`. -/
def wlookup : Watchlist → String → Option StoredEntry
  | [], _ => none
  | (k, v) :: tl, a => if a = k then some v else wlookup tl a

/-- The currency used for one evaluation:
`p.get("currency", stored.get("currency", "USD"))` (bot.py line 311). -/
def currencyOf (stored : StoredEntry) (gd : GameData) : String :=
  (gd.prices.currency).getD (stored.currency.getD "USD")

/-- The retail drop message
`f"🏷️ **Retail**: ~~{old}~~ → **{new} {currency}**"` (bot.py line 325). -/
def retailMsg (old new currency : String) : String :=
  "🏷️ **Retail**: ~~" ++ old ++ "~~ → **" ++ new ++ " " ++ currency ++ "**"

/-- The keyshops drop message
`f"🔑 **Keyshops**: ~~{old}~~ → **{new} {currency}**"` (bot.py line 335). -/
def keyshopMsg (old new currency : String) : String :=
  "🔑 **Keyshops**: ~~" ++ old ++ "~~ → **" ++ new ++ " " ++ currency ++ "**"

/-- The retail comparison block of `price_checker` (bot.py lines 320-328):
when both the fetched and stored retail strings are truthy and both parse
as floats and the new price is strictly lower, one drop message is
produced; a `ValueError` on either parse silently yields nothing. -/
def retailAlerts (stored : StoredEntry) (gd : GameData) : List String :=
  let p := gd.prices
  if truthy p.currentRetail && truthy stored.last_retail then
    match parseDecimal (p.currentRetail.getD ""), parseDecimal (stored.last_retail.getD "") with
    | some n, some o =>
        if Decimal.blt n o then
          [retailMsg (stored.last_retail.getD "") (p.currentRetail.getD "") (currencyOf stored gd)]
        else []
    | _, _ => []
  else []

/-- The keyshops comparison block of `price_checker` (bot.py lines
330-338), mirroring `retailAlerts`. -/
def keyshopAlerts (stored : StoredEntry) (gd : GameData) : List String :=
  let p := gd.prices
  if truthy p.currentKeyshops && truthy stored.last_keyshops then
    match parseDecimal (p.currentKeyshops.getD ""), parseDecimal (stored.last_keyshops.getD "") with
    | some n, some o =>
        if Decimal.blt n o then
          [keyshopMsg (stored.last_keyshops.getD "") (p.currentKeyshops.getD "") (currencyOf stored gd)]
        else []
    | _, _ => []
  else []

/-- Result of evaluating one game against a fetched record: the mutated
stored entry and the list of drop messages. -/
structure EvalResult where
  updated : StoredEntry
  alerts : List String
deriving DecidableEq, Repr

/-- The per-game body of `price_checker` (bot.py lines 309-372): collect
the drop messages of both channels, then mutate the stored entry —
`last_retail` and `last_keyshops` are overwritten unconditionally with the
fetched values (line 366-367), `currency` is overwritten with the
evaluation currency (line 368), and the two historical fields are
overwritten only when the fetched historical value is truthy (lines
369-372). -/
def evalGame (stored : StoredEntry) (gd : GameData) : EvalResult :=
  let p := gd.prices
  { updated :=
      { stored with
        last_retail := p.currentRetail
        last_keyshops := p.currentKeyshops
        currency := some (currencyOf stored gd)
        historical_retail :=
          if truthy p.historicalRetail then p.historicalRetail else stored.historical_retail
        historical_keyshops :=
          if truthy p.historicalKeyshops then p.historicalKeyshops else stored.historical_keyshops }
    alerts := retailAlerts stored gd ++ keyshopAlerts stored gd }

/-- The alert embed sent for one game whose price dropped (bot.py lines
340-362): product name, URL, the drop messages as the description, and the
historical retail low as an extra field when truthy. -/
structure AlertRecord where
  name : String
  url : String
  drops : List String
  histRetail : Option String
deriving DecidableEq, Repr

/-- The alert embed built by `price_checker` for a game with a non-empty
alert list: `url = stored.get("url", game_data.get("url", ""))`,
`hist_retail = p.get("historicalRetail", stored.get("historical_retail"))`,
included only when truthy. -/
def gameAlertRecord (stored : StoredEntry) (gd : GameData) : AlertRecord :=
  let hr :=
    match gd.prices.historicalRetail with
    | some v => some v
    | none => stored.historical_retail
  { name := stored.name
    url := stored.url.getD (gd.url.getD "")
    drops := (evalGame stored gd).alerts
    histRetail := if truthy hr then hr else none }

/-- Observable events of one `price_checker` cycle: a batch fetch, the
inter-batch `asyncio.sleep(2)`, a `channel.send(embed=...)` for one game's
alert, and the final `save_data`. -/
inductive Event where
  | fetch (batch : List String)
  | sleep
  | send (app_id : String) (record : AlertRecord)
  | save (data : Watchlist)
deriving DecidableEq, Repr

/-- `Event.fetch` discriminator. -/
def isFetch : Event → Bool
  | Event.fetch _ => true
  | _ => false

/-- `Event.sleep` discriminator. -/
def isSleep : Event → Bool
  | Event.sleep => true
  | _ => false

/-- `Event.send` discriminator. -/
def isSend : Event → Bool
  | Event.send _ _ => true
  | _ => false

/-- `Event.save` discriminator. -/
def isSave : Event → Bool
  | Event.save _ => true
  | _ => false

/-- In-place mutation of one watchlist entry
(`data["games"][app_id]` updated through `stored`). -/
def updateEntry (data : Watchlist) (k : String) (e : StoredEntry) : Watchlist :=
  data.map (fun kv => if kv.1 = k then (kv.1, e) else kv)

/-- One iteration of the inner `for app_id in batch` loop of
`price_checker` (bot.py lines 304-372): a key absent from the batch
response is skipped entirely; otherwise the game is evaluated, an alert
embed is sent when at least one drop message was produced, and the stored
entry is mutated. -/
def processGame (data : Watchlist) (prices : String → Option GameData) (app_id : String) :
    Watchlist × List Event :=
  match prices app_id with
  | none => (data, [])
  | some gd =>
    match wlookup data app_id with
    | none => (data, [])
    | some stored =>
      (updateEntry data app_id (evalGame stored gd).updated,
       if (evalGame stored gd).alerts = [] then []
       else [Event.send app_id (gameAlertRecord stored gd)])

/-- The inner loop of `price_checker` over the keys of one batch,
threading the in-memory watchlist and collecting send events in order. -/
def processBatch (prices : String → Option GameData) :
    List String → Watchlist → Watchlist × List Event
  | [], data => (data, [])
  | id :: rest, data =>
    ((processBatch prices rest (processGame data prices id).1).1,
     (processGame data prices id).2
       ++ (processBatch prices rest (processGame data prices id).1).2)

/-- Structural worker for `chunks`; the fuel argument only bounds the
recursion depth and never runs out when it starts at the list's length,
since every step consumes at least one element. -/
def chunksAux : Nat → List String → List (List String)
  | 0, _ => []
  | _ + 1, [] => []
  | fuel + 1, a :: t => ((a :: t).take 100) :: chunksAux fuel ((a :: t).drop 100)

/-- The batch slicing `for i in range(0, len(app_ids), 100):
batch = app_ids[i : i + 100]` (bot.py lines 300-301). -/
def chunks (l : List String) : List (List String) := chunksAux l.length l

/-- The outer batch loop of `price_checker` (bot.py lines 300-376) over
the pre-sliced batches: fetch the batch, process its keys, and sleep
exactly when further batches remain (`if i + 100 < len(app_ids)`).
`resp b` is the mapping returned by `fetch_prices(session, b)`. -/
def runChunks (resp : List String → String → Option GameData) :
    List (List String) → Watchlist → Watchlist × List Event
  | [], data => (data, [])
  | b :: bs, data =>
    ((runChunks resp bs (processBatch (resp b) b data).1).1,
     Event.fetch b :: (processBatch (resp b) b data).2
       ++ (if bs = [] then [] else [Event.sleep])
       ++ (runChunks resp bs (processBatch (resp b) b data).1).2)

/-- One full `price_checker` cycle (bot.py lines 284-378): an empty
watchlist returns immediately with no fetch and no save; otherwise all
batches are processed and the mutated watchlist is saved once at the end.
Returns the final watchlist and the event trace. -/
def price_checker (resp : List String → String → Option GameData) (data : Watchlist) :
    Watchlist × List Event :=
  if data = [] then (data, [])
  else
    ((runChunks resp (chunks (data.map Prod.fst)) data).1,
     (runChunks resp (chunks (data.map Prod.fst)) data).2
       ++ [Event.save (runChunks resp (chunks (data.map Prod.fst)) data).1])

/-- Outcome of the `!watch` command. -/
inductive WatchResult where
  | alreadyWatched (name : String)
  | notFound
  | added (entry : StoredEntry)
deriving DecidableEq, Repr

/-- The fresh entry built by `watch_game` (bot.py lines 149-161):
`title = game_data.get("title", game_name or steam_app_id)`, baseline
prices from the fetched record, currency defaulting to `"USD"`, URL
defaulting to the GG.deals steam-app page. -/
def mkWatchEntry (app_id game_name author : String) (gd : GameData) : StoredEntry :=
  let p := gd.prices
  { name := gd.title.getD (if game_name = "" then app_id else game_name)
    last_retail := p.currentRetail
    last_keyshops := p.currentKeyshops
    historical_retail := p.historicalRetail
    historical_keyshops := p.historicalKeyshops
    currency := some (p.currency.getD "USD")
    url := some (gd.url.getD ("https://gg.deals/steam/app/" ++ app_id ++ "/"))
    added_by := author }

/-- The `!watch` command (bot.py lines 127-163): an already-watched key
returns early without fetching or saving; a key the source does not
return yields `notFound` without saving; otherwise the new entry is
appended and the watchlist saved. The Bool records whether `save_data`
ran. `fetched` is the mapping returned by `fetch_prices`. -/
def watch_game (data : Watchlist) (fetched : String → Option GameData)
    (app_id game_name author : String) : WatchResult × Watchlist × Bool :=
  match wlookup data app_id with
  | some e => (WatchResult.alreadyWatched e.name, data, false)
  | none =>
    match fetched app_id with
    | none => (WatchResult.notFound, data, false)
    | some gd =>
      let entry := mkWatchEntry app_id game_name author gd
      (WatchResult.added entry, data ++ [(app_id, entry)], true)

/-- Outcome of the `!unwatch` command. -/
inductive UnwatchResult where
  | removed (name : String)
  | notWatched
deriving DecidableEq, Repr

/-- The `!unwatch` command (bot.py lines 178-194): a key not on the
watchlist yields `notWatched` without saving; otherwise exactly that key
is deleted (`del data["games"][app_id]`) and the watchlist saved. The
Bool records whether `save_data` ran. -/
def unwatch_game (data : Watchlist) (app_id : String) : UnwatchResult × Watchlist × Bool :=
  match wlookup data app_id with
  | none => (UnwatchResult.notWatched, data, false)
  | some e =>
    (UnwatchResult.removed e.name, data.filter (fun kv => kv.1 ≠ app_id), true)

/-! ### Helper lemmas -/

theorem parseDecimal_empty : parseDecimal "" = none := rfl

theorem truthy_of_parse {s : String} {q : Decimal} (h : parseDecimal s = some q) :
    truthy (some s) = true := by
  by_cases hs : s = ""
  · subst hs
    rw [parseDecimal_empty] at h
    exact Option.noConfusion h
  · simp [truthy, hs]

/-- The executable cross-multiplication comparison agrees with the
strict order on the rational values of the decimals. -/
theorem Decimal.blt_eq_true_iff (a b : Decimal) :
    Decimal.blt a b = true ↔ a.toRat < b.toRat := by
  rw [Decimal.blt, decide_eq_true_iff, Decimal.toRat, Decimal.toRat,
    div_lt_div_iff₀ (by positivity) (by positivity)]
  exact_mod_cast Iff.rfl

theorem retailAlerts_eval {stored : StoredEntry} {gd : GameData} {so sn : String}
    {o n : Decimal}
    (hso : stored.last_retail = some so) (hsn : gd.prices.currentRetail = some sn)
    (hpo : parseDecimal so = some o) (hpn : parseDecimal sn = some n) :
    retailAlerts stored gd
      = (if Decimal.blt n o then [retailMsg so sn (currencyOf stored gd)] else []) := by
  have t1 := truthy_of_parse hpn
  have t2 := truthy_of_parse hpo
  simp [retailAlerts, hso, hsn, t1, t2, hpo, hpn]

theorem keyshopAlerts_eval {stored : StoredEntry} {gd : GameData} {so sn : String}
    {o n : Decimal}
    (hso : stored.last_keyshops = some so) (hsn : gd.prices.currentKeyshops = some sn)
    (hpo : parseDecimal so = some o) (hpn : parseDecimal sn = some n) :
    keyshopAlerts stored gd
      = (if Decimal.blt n o then [keyshopMsg so sn (currencyOf stored gd)] else []) := by
  have t1 := truthy_of_parse hpn
  have t2 := truthy_of_parse hpo
  simp [keyshopAlerts, hso, hsn, t1, t2, hpo, hpn]

theorem evalGame_alerts (stored : StoredEntry) (gd : GameData) :
    (evalGame stored gd).alerts = retailAlerts stored gd ++ keyshopAlerts stored gd := rfl

theorem retailAlerts_self (stored : StoredEntry) (gd : GameData)
    (h : stored.last_retail = gd.prices.currentRetail) :
    retailAlerts stored gd = [] := by
  cases hc : gd.prices.currentRetail with
  | none => simp [retailAlerts, h, hc, truthy]
  | some s =>
    cases hp : parseDecimal s with
    | none => simp [retailAlerts, h, hc, hp]
    | some q => simp [retailAlerts, h, hc, hp, Decimal.blt]

theorem keyshopAlerts_self (stored : StoredEntry) (gd : GameData)
    (h : stored.last_keyshops = gd.prices.currentKeyshops) :
    keyshopAlerts stored gd = [] := by
  cases hc : gd.prices.currentKeyshops with
  | none => simp [keyshopAlerts, h, hc, truthy]
  | some s =>
    cases hp : parseDecimal s with
    | none => simp [keyshopAlerts, h, hc, hp]
    | some q => simp [keyshopAlerts, h, hc, hp, Decimal.blt]

/-! ### C1 — baseline advance on null fetched values -/

/-- A stored entry with a retail baseline, for the C1 counterexample. -/
def c1Stored : StoredEntry :=
  { name := "G", last_retail := some "9.99", last_keyshops := none
    historical_retail := none, historical_keyshops := none
    currency := some "USD", url := none, added_by := "u" }

/-- A fetched record whose current retail price is null, for the C1
counterexample. -/
def c1GD : GameData :=
  { title := none, url := none
    prices := { currentRetail := none, currentKeyshops := none
                historicalRetail := none, historicalKeyshops := none
                currency := none } }

/-- C1 counterexample: with a stored retail baseline of `"9.99"` and a
fetched record whose current retail price is null, the evaluation erases
the stored baseline (the updated entry's `last_retail` becomes `none`)
instead of leaving it unchanged, contradicting the claim that a null
fetched value leaves the channel's stored baseline unchanged. -/
theorem c1_null_erases_current_baseline :
    c1Stored.last_retail = some "9.99"
    ∧ c1GD.prices.currentRetail = none
    ∧ (evalGame c1Stored c1GD).updated.last_retail = none :=
  ⟨rfl, rfl, rfl⟩

/-- C1 (amended): the evaluation always overwrites the stored per-channel
current prices with the freshly fetched values, including null (a null
fetched current price erases the stored baseline); only the historical-low
values are guarded — they advance exactly when the fetched historical
value is truthy (non-null, non-empty) and are left unchanged otherwise. -/
theorem c1_baseline_update_rule :
    ∀ (stored : StoredEntry) (gd : GameData),
      (evalGame stored gd).updated.last_retail = gd.prices.currentRetail
      ∧ (evalGame stored gd).updated.last_keyshops = gd.prices.currentKeyshops
      ∧ (evalGame stored gd).updated.historical_retail
          = (if truthy gd.prices.historicalRetail then gd.prices.historicalRetail
             else stored.historical_retail)
      ∧ (evalGame stored gd).updated.historical_keyshops
          = (if truthy gd.prices.historicalKeyshops then gd.prices.historicalKeyshops
             else stored.historical_keyshops) :=
  fun _ _ => ⟨rfl, rfl, rfl, rfl⟩

/-! ### C2 — strict drop detection -/

/-- C2: when the stored and fetched prices of a channel are both present
and both parse as decimals, the evaluation produces exactly one drop
description for that channel when the new price is strictly lower, and
none otherwise; the full alert list is precisely the retail descriptions
followed by the keyshop descriptions. -/
theorem c2_strict_drop_detection :
    (∀ (stored : StoredEntry) (gd : GameData),
        (evalGame stored gd).alerts = retailAlerts stored gd ++ keyshopAlerts stored gd)
    ∧ (∀ (stored : StoredEntry) (gd : GameData) (so sn : String) (o n : Decimal),
        stored.last_retail = some so → gd.prices.currentRetail = some sn →
        parseDecimal so = some o → parseDecimal sn = some n →
        (retailAlerts stored gd).length = (if n.toRat < o.toRat then 1 else 0))
    ∧ (∀ (stored : StoredEntry) (gd : GameData) (so sn : String) (o n : Decimal),
        stored.last_keyshops = some so → gd.prices.currentKeyshops = some sn →
        parseDecimal so = some o → parseDecimal sn = some n →
        (keyshopAlerts stored gd).length = (if n.toRat < o.toRat then 1 else 0)) := by
  refine ⟨fun _ _ => rfl, ?_, ?_⟩
  · intro stored gd so sn o n hso hsn hpo hpn
    rw [retailAlerts_eval hso hsn hpo hpn]
    by_cases h : n.toRat < o.toRat
    · rw [if_pos ((Decimal.blt_eq_true_iff n o).mpr h), if_pos h]
      rfl
    · rw [if_neg ((not_congr (Decimal.blt_eq_true_iff n o)).mpr h), if_neg h]
      rfl
  · intro stored gd so sn o n hso hsn hpo hpn
    rw [keyshopAlerts_eval hso hsn hpo hpn]
    by_cases h : n.toRat < o.toRat
    · rw [if_pos ((Decimal.blt_eq_true_iff n o).mpr h), if_pos h]
      rfl
    · rw [if_neg ((not_congr (Decimal.blt_eq_true_iff n o)).mpr h), if_neg h]
      rfl

/-- A stored entry for concrete evaluations: retail `"9.99"`, keyshops
`"4.50"`. -/
def exStored : StoredEntry :=
  { name := "HL2", last_retail := some "9.99", last_keyshops := some "4.50"
    historical_retail := some "2.49", historical_keyshops := none
    currency := some "USD", url := some "u", added_by := "me" }

/-- A fetched record for concrete evaluations: retail dropped to
`"4.99"`, keyshops unchanged at `"4.50"`. -/
def exGD : GameData :=
  { title := some "HL2", url := some "g"
    prices := { currentRetail := some "4.99", currentKeyshops := some "4.50"
                historicalRetail := some "4.99", historicalKeyshops := none
                currency := some "USD" } }

/-- C2 witness: stored retail `"9.99"`, fetched `"4.99"` yields exactly
one retail drop description. -/
theorem c2_witness : (retailAlerts exStored exGD).length = 1 := by
  have h := c2_strict_drop_detection.2.1 exStored exGD "9.99" "4.99"
    ⟨999, 2⟩ ⟨499, 2⟩ rfl rfl (by decide) (by decide)
  rw [h, if_pos ((Decimal.blt_eq_true_iff ⟨499, 2⟩ ⟨999, 2⟩).mp (by decide))]

/-! ### C3 — idempotence across identical fetches -/

/-- C3: re-running the evaluation on the updated entry produced by a
first evaluation against the same fetched record yields zero alerts —
the baseline advance makes the comparison idempotent. -/
theorem c3_evaluate_idempotent :
    ∀ (stored : StoredEntry) (gd : GameData),
      (evalGame (evalGame stored gd).updated gd).alerts = [] := by
  intro stored gd
  rw [evalGame_alerts, retailAlerts_self _ _ rfl, keyshopAlerts_self _ _ rfl]
  rfl

/-! ### C5 — malformed prices skip the channel only -/

/-- C5: when a channel's stored or fetched price string fails to parse as
a decimal, that channel produces no drop description and the whole
evaluation degenerates to exactly the other channel's evaluation — a
malformed value never aborts the evaluation of the remaining channels. -/
theorem c5_malformed_channel_skipped :
    (∀ (stored : StoredEntry) (gd : GameData) (so sn : String),
        stored.last_retail = some so → gd.prices.currentRetail = some sn →
        parseDecimal so = none ∨ parseDecimal sn = none →
        retailAlerts stored gd = []
        ∧ (evalGame stored gd).alerts = keyshopAlerts stored gd)
    ∧ (∀ (stored : StoredEntry) (gd : GameData) (so sn : String),
        stored.last_keyshops = some so → gd.prices.currentKeyshops = some sn →
        parseDecimal so = none ∨ parseDecimal sn = none →
        keyshopAlerts stored gd = []
        ∧ (evalGame stored gd).alerts = retailAlerts stored gd) := by
  constructor
  · intro stored gd so sn hso hsn hbad
    have hres : retailAlerts stored gd = [] := by
      rcases hbad with hb | hb
      · cases hp : parseDecimal sn <;> simp [retailAlerts, hso, hsn, hp, hb]
      · simp [retailAlerts, hso, hsn, hb]
    exact ⟨hres, by rw [evalGame_alerts, hres]; rfl⟩
  · intro stored gd so sn hso hsn hbad
    have hres : keyshopAlerts stored gd = [] := by
      rcases hbad with hb | hb
      · cases hp : parseDecimal sn <;> simp [keyshopAlerts, hso, hsn, hp, hb]
      · simp [keyshopAlerts, hso, hsn, hb]
    exact ⟨hres, by rw [evalGame_alerts, hres, List.append_nil]⟩

/-- A stored entry whose retail price string is malformed, for the C5
witness. -/
def c5Stored : StoredEntry :=
  { name := "G", last_retail := some "N/A", last_keyshops := some "4.50"
    historical_retail := none, historical_keyshops := none
    currency := some "USD", url := none, added_by := "u" }

/-- C5 witness: a malformed stored retail price (`"N/A"`) produces no
retail drop and leaves the evaluation equal to the keyshops evaluation
alone. -/
theorem c5_witness :
    retailAlerts c5Stored exGD = []
    ∧ (evalGame c5Stored exGD).alerts = keyshopAlerts c5Stored exGD :=
  c5_malformed_channel_skipped.1 c5Stored exGD "N/A" "4.99" rfl rfl (Or.inl (by decide))

/-! ### C4 — fetch misses preserve the stored entry -/

theorem wlookup_cons (a : String) (v : StoredEntry) (tl : Watchlist) (id : String) :
    wlookup ((a, v) :: tl) id = if id = a then some v else wlookup tl id := rfl

theorem wlookup_updateEntry_ne (data : Watchlist) (k id : String) (e : StoredEntry)
    (h : k ≠ id) : wlookup (updateEntry data k e) id = wlookup data id := by
  induction data with
  | nil => rfl
  | cons kv tl ih =>
    obtain ⟨a, v⟩ := kv
    show wlookup ((if a = k then (a, e) else (a, v)) :: updateEntry tl k e) id
      = wlookup ((a, v) :: tl) id
    by_cases ha : a = k
    · have hid : ¬ id = a := fun hc => h (ha ▸ hc).symm
      rw [if_pos ha, wlookup_cons, wlookup_cons, if_neg hid, if_neg hid, ih]
    · rw [if_neg ha, wlookup_cons, wlookup_cons]
      by_cases hid : id = a
      · rw [if_pos hid, if_pos hid]
      · rw [if_neg hid, if_neg hid, ih]

theorem processGame_miss (data : Watchlist) (prices : String → Option GameData)
    (id k : String) (hid : prices id = none) :
    wlookup (processGame data prices k).1 id = wlookup data id
    ∧ ∀ r, Event.send id r ∉ (processGame data prices k).2 := by
  by_cases hk : k = id
  · subst hk
    simp [processGame, hid]
  · cases hp : prices k with
    | none => simp [processGame, hp]
    | some gd =>
      cases hl : wlookup data k with
      | none => simp [processGame, hp, hl]
      | some stored =>
        refine ⟨?_, ?_⟩
        · simp only [processGame, hp, hl]
          exact wlookup_updateEntry_ne data k id _ hk
        · intro r
          simp only [processGame, hp, hl]
          intro hmem
          split at hmem
          · exact List.not_mem_nil _ hmem
          · have heq := List.mem_singleton.mp hmem
            injection heq with hik hr
            exact hk hik.symm

theorem processBatch_miss (prices : String → Option GameData) (id : String)
    (hid : prices id = none) :
    ∀ (l : List String) (data : Watchlist),
      wlookup (processBatch prices l data).1 id = wlookup data id
      ∧ ∀ r, Event.send id r ∉ (processBatch prices l data).2 := by
  intro l
  induction l with
  | nil => intro data; exact ⟨rfl, fun r => List.not_mem_nil _⟩
  | cons k rest ih =>
    intro data
    have h1 := processGame_miss data prices id k hid
    have h2 := ih (processGame data prices k).1
    refine ⟨?_, ?_⟩
    · simp only [processBatch]
      rw [h2.1, h1.1]
    · intro r
      simp only [processBatch, List.mem_append]
      rintro (hc | hc)
      · exact h1.2 r hc
      · exact h2.2 r hc

theorem runChunks_miss (resp : List String → String → Option GameData) (id : String)
    (hid : ∀ b, resp b id = none) :
    ∀ (cs : List (List String)) (data : Watchlist),
      wlookup (runChunks resp cs data).1 id = wlookup data id
      ∧ ∀ r, Event.send id r ∉ (runChunks resp cs data).2 := by
  intro cs
  induction cs with
  | nil => intro data; exact ⟨rfl, fun r => List.not_mem_nil _⟩
  | cons b bs ih =>
    intro data
    have h1 := processBatch_miss (resp b) id (hid b) b data
    have h2 := ih (processBatch (resp b) b data).1
    refine ⟨?_, ?_⟩
    · simp only [runChunks]
      rw [h2.1, h1.1]
    · intro r
      simp only [runChunks, List.mem_cons, List.mem_append]
      rintro (((hc | hc) | hc) | hc)
      · exact Event.noConfusion hc
      · exact h1.2 r hc
      · split at hc
        · exact List.not_mem_nil _ hc
        · exact Event.noConfusion (List.mem_singleton.mp hc)
      · exact h2.2 r hc

/-- C4: a product key for which no batch's fetch response contains a
record is left with its stored entry unchanged by the whole cycle, and no
alert is sent for it. -/
theorem c4_fetch_miss_preserves_entry :
    ∀ (resp : List String → String → Option GameData) (data : Watchlist) (id : String),
      (∀ b, resp b id = none) →
      wlookup (price_checker resp data).1 id = wlookup data id
      ∧ ∀ r, Event.send id r ∉ (price_checker resp data).2 := by
  intro resp data id hid
  by_cases hd : data = []
  · simp [price_checker, hd]
  · have h := runChunks_miss resp id hid (chunks (data.map Prod.fst)) data
    refine ⟨?_, ?_⟩
    · simp only [price_checker, if_neg hd]
      exact h.1
    · intro r
      simp only [price_checker, if_neg hd, List.mem_append]
      rintro (hc | hc)
      · exact h.2 r hc
      · rcases List.mem_singleton.mp hc with hc'
        exact Event.noConfusion hc'

/-- C4 witness: with a one-game watchlist and a source that returns no
record for the key, the cycle leaves the stored entry unchanged. -/
theorem c4_witness :
    wlookup (price_checker (fun _ _ => none) [("70", exStored)]).1 "70"
      = wlookup [("70", exStored)] "70" :=
  (c4_fetch_miss_preserves_entry (fun _ _ => none) [("70", exStored)] "70"
    (fun _ => rfl)).1

/-! ### C6 — multi-channel drops bundle into one alert -/

theorem retailAlerts_drop {stored : StoredEntry} {gd : GameData} {so sn : String}
    {o n : Decimal}
    (hso : stored.last_retail = some so) (hsn : gd.prices.currentRetail = some sn)
    (hpo : parseDecimal so = some o) (hpn : parseDecimal sn = some n)
    (hlt : Decimal.blt n o = true) :
    retailAlerts stored gd = [retailMsg so sn (currencyOf stored gd)] := by
  rw [retailAlerts_eval hso hsn hpo hpn, if_pos hlt]

theorem keyshopAlerts_drop {stored : StoredEntry} {gd : GameData} {so sn : String}
    {o n : Decimal}
    (hso : stored.last_keyshops = some so) (hsn : gd.prices.currentKeyshops = some sn)
    (hpo : parseDecimal so = some o) (hpn : parseDecimal sn = some n)
    (hlt : Decimal.blt n o = true) :
    keyshopAlerts stored gd = [keyshopMsg so sn (currencyOf stored gd)] := by
  rw [keyshopAlerts_eval hso hsn hpo hpn, if_pos hlt]

/-- C6: a game whose retail and keyshop prices both dropped in the same
cycle produces exactly one send event, whose alert record bundles both
drop descriptions in evaluation order. -/
theorem c6_multi_channel_single_alert :
    ∀ (data : Watchlist) (prices : String → Option GameData) (id : String)
      (stored : StoredEntry) (gd : GameData) (so sn ko kn : String) (ro rn qo qn : Decimal),
      wlookup data id = some stored → prices id = some gd →
      stored.last_retail = some so → gd.prices.currentRetail = some sn →
      parseDecimal so = some ro → parseDecimal sn = some rn → rn.toRat < ro.toRat →
      stored.last_keyshops = some ko → gd.prices.currentKeyshops = some kn →
      parseDecimal ko = some qo → parseDecimal kn = some qn → qn.toRat < qo.toRat →
      (processGame data prices id).2 = [Event.send id (gameAlertRecord stored gd)]
      ∧ (gameAlertRecord stored gd).drops
          = [retailMsg so sn (currencyOf stored gd), keyshopMsg ko kn (currencyOf stored gd)] := by
  intro data prices id stored gd so sn ko kn ro rn qo qn
  intro hl hp hso hsn hpo hpn hrlt hko hkn hqo hqn hqlt
  have hr := retailAlerts_drop hso hsn hpo hpn ((Decimal.blt_eq_true_iff rn ro).mpr hrlt)
  have hk := keyshopAlerts_drop hko hkn hqo hqn ((Decimal.blt_eq_true_iff qn qo).mpr hqlt)
  have halerts : (evalGame stored gd).alerts
      = [retailMsg so sn (currencyOf stored gd), keyshopMsg ko kn (currencyOf stored gd)] := by
    rw [evalGame_alerts, hr, hk]
    rfl
  refine ⟨?_, ?_⟩
  · simp only [processGame, hp, hl, halerts]
    simp
  · simp only [gameAlertRecord, halerts]

/-! ### C7 — batching and the inter-batch delay -/

theorem processGame_sends (data : Watchlist) (prices : String → Option GameData)
    (k : String) : ∀ e ∈ (processGame data prices k).2, isSend e = true := by
  intro e he
  cases hp : prices k with
  | none => simp [processGame, hp] at he
  | some gd =>
    cases hl : wlookup data k with
    | none => simp [processGame, hp, hl] at he
    | some stored =>
      simp only [processGame, hp, hl] at he
      split at he
      · exact absurd he (List.not_mem_nil _)
      · rw [List.mem_singleton.mp he]
        rfl

theorem processBatch_sends (prices : String → Option GameData) :
    ∀ (l : List String) (data : Watchlist) (e : Event),
      e ∈ (processBatch prices l data).2 → isSend e = true := by
  intro l
  induction l with
  | nil => intro data e he; exact absurd he (List.not_mem_nil _)
  | cons k rest ih =>
    intro data e he
    simp only [processBatch, List.mem_append] at he
    rcases he with hc | hc
    · exact processGame_sends data prices k e hc
    · exact ih _ e hc

theorem processBatch_countP_isSleep (prices : String → Option GameData)
    (l : List String) (data : Watchlist) :
    (processBatch prices l data).2.countP isSleep = 0 := by
  rw [List.countP_eq_zero]
  intro e he
  have hs := processBatch_sends prices l data e he
  cases e <;> simp_all [isSend, isSleep]

theorem processBatch_countP_isFetch (prices : String → Option GameData)
    (l : List String) (data : Watchlist) :
    (processBatch prices l data).2.countP isFetch = 0 := by
  rw [List.countP_eq_zero]
  intro e he
  have hs := processBatch_sends prices l data e he
  cases e <;> simp_all [isSend, isFetch]

theorem runChunks_countP_isSleep (resp : List String → String → Option GameData) :
    ∀ (cs : List (List String)) (data : Watchlist),
      (runChunks resp cs data).2.countP isSleep = cs.length - 1 := by
  intro cs
  induction cs with
  | nil => intro data; rfl
  | cons b bs ih =>
    intro data
    simp only [runChunks, List.countP_cons, List.countP_append]
    rw [processBatch_countP_isSleep, ih]
    cases bs with
    | nil => simp [isSleep]
    | cons b' bs' =>
      have hne : (b' :: bs') ≠ ([] : List (List String)) := by simp
      rw [if_neg hne]
      simp [isSleep, List.countP_cons]
      omega

theorem runChunks_countP_isFetch (resp : List String → String → Option GameData) :
    ∀ (cs : List (List String)) (data : Watchlist),
      (runChunks resp cs data).2.countP isFetch = cs.length := by
  intro cs
  induction cs with
  | nil => intro data; rfl
  | cons b bs ih =>
    intro data
    simp only [runChunks, List.countP_cons, List.countP_append]
    rw [processBatch_countP_isFetch, ih]
    cases bs with
    | nil => simp [isFetch]
    | cons b' bs' =>
      have hne : (b' :: bs') ≠ ([] : List (List String)) := by simp
      rw [if_neg hne]
      simp [isFetch, List.countP_cons]
      omega

theorem getLast?_ne_sleep_of_sends (l : List Event) (a : Event)
    (hl : ∀ e ∈ l, isSend e = true) (ha : isSleep a = false) :
    (a :: l).getLast? ≠ some Event.sleep := by
  induction l generalizing a with
  | nil =>
    intro hc
    rw [List.getLast?_singleton] at hc
    rw [Option.some_inj.mp hc] at ha
    exact Bool.noConfusion ha
  | cons x xs ih =>
    rw [List.getLast?_cons_cons]
    refine ih x (fun e he => hl e (List.mem_cons_of_mem _ he)) ?_
    have hx := hl x (List.mem_cons_self _ _)
    cases x <;> simp_all [isSend, isSleep]

theorem runChunks_getLast_ne_sleep (resp : List String → String → Option GameData) :
    ∀ (cs : List (List String)) (data : Watchlist),
      (runChunks resp cs data).2.getLast? ≠ some Event.sleep := by
  intro cs
  induction cs with
  | nil =>
    intro data hc
    exact Option.noConfusion hc
  | cons b bs ih =>
    intro data
    cases bs with
    | nil =>
      have htr : (runChunks resp [b] data).2
          = Event.fetch b :: (processBatch (resp b) b data).2 := by
        simp [runChunks]
      rw [htr]
      exact getLast?_ne_sleep_of_sends _ _ (processBatch_sends (resp b) b data) rfl
    | cons b' bs' =>
      have hlast := ih (processBatch (resp b) b data).1
      have hne : (b' :: bs') ≠ ([] : List (List String)) := by simp
      have htr : (runChunks resp (b :: b' :: bs') data).2
          = (Event.fetch b :: (processBatch (resp b) b data).2 ++ [Event.sleep])
            ++ (runChunks resp (b' :: bs') (processBatch (resp b) b data).1).2 := by
        simp [runChunks, hne]
      rw [htr, List.getLast?_append]
      cases hgl : (runChunks resp (b' :: bs') (processBatch (resp b) b data).1).2.getLast? with
      | none =>
        have hcons : (runChunks resp (b' :: bs') (processBatch (resp b) b data).1).2 ≠ [] := by
          simp [runChunks]
        exact absurd (List.getLast?_eq_none_iff.mp hgl) hcons
      | some v =>
        rw [hgl] at hlast
        simpa using hlast

/-- A stored entry with no observed prices, used to build the 150-key
watchlist. -/
def blankEntry : StoredEntry :=
  { name := "G", last_retail := none, last_keyshops := none
    historical_retail := none, historical_keyshops := none
    currency := some "USD", url := none, added_by := "u" }

/-- 150 distinct tracked keys. -/
def keys150 : List String := (List.range 150).map (fun i => toString i)

/-- A 150-game watchlist. -/
def data150 : Watchlist := keys150.map (fun k => (k, blankEntry))

set_option maxRecDepth 16000 in
/-- C7: a cycle over a 150-key watchlist issues exactly two fetch batches
of 100 and 50 keys with the delay inserted exactly once, between them;
and in general a cycle over any pre-sliced batch list inserts exactly
`batches - 1` delays, issues exactly one fetch per batch, and never ends
a batch sequence with a delay. -/
theorem c7_batching_and_delay :
    ((price_checker (fun _ _ => none) data150).2
        = [Event.fetch (keys150.take 100), Event.sleep,
           Event.fetch (keys150.drop 100), Event.save data150]
      ∧ (keys150.take 100).length = 100 ∧ (keys150.drop 100).length = 50)
    ∧ ∀ (resp : List String → String → Option GameData) (cs : List (List String))
        (data : Watchlist),
        (runChunks resp cs data).2.countP isSleep = cs.length - 1
        ∧ (runChunks resp cs data).2.countP isFetch = cs.length
        ∧ (runChunks resp cs data).2.getLast? ≠ some Event.sleep := by
  constructor
  · exact ⟨by decide, by decide, by decide⟩
  · intro resp cs data
    exact ⟨runChunks_countP_isSleep resp cs data, runChunks_countP_isFetch resp cs data,
      runChunks_getLast_ne_sleep resp cs data⟩

/-- C7 witness: a single-batch chunk list gets zero delays. -/
theorem c7_witness :
    (runChunks (fun _ _ => none) [["70"]] []).2.countP isSleep = 0 := by
  simpa using (c7_batching_and_delay.2 (fun _ _ => none) [["70"]] []).1

/-! ### C8 — when the save happens relative to the alert dispatches -/

theorem runChunks_no_save (resp : List String → String → Option GameData) :
    ∀ (cs : List (List String)) (data : Watchlist) (e : Event),
      e ∈ (runChunks resp cs data).2 → isSave e = false := by
  intro cs
  induction cs with
  | nil => intro data e he; exact absurd he (List.not_mem_nil _)
  | cons b bs ih =>
    intro data e he
    simp only [runChunks, List.mem_cons, List.mem_append] at he
    rcases he with ((hc | hc) | hc) | hc
    · rw [hc]; rfl
    · have hs := processBatch_sends (resp b) b data e hc
      cases e <;> simp_all [isSend, isSave]
    · split at hc
      · exact absurd hc (List.not_mem_nil _)
      · rw [List.mem_singleton.mp hc]; rfl
    · exact ih _ e hc

/-- The fetched record used by the C8 counterexample (a retail drop). -/
def c8resp : List String → String → Option GameData :=
  fun _ k => if k = "70" then some exGD else none

/-- The one-game watchlist used by the C8 counterexample. -/
def c8data : Watchlist := [("70", exStored)]

/-- C8 counterexample: on a one-game watchlist whose retail price
dropped, the cycle's trace contains a send event at an earlier position
than the save event, refuting the claim that every collected alert is
dispatched after the single save. -/
theorem c8_send_before_save_cex :
    ¬ (∀ i j : Fin ((price_checker c8resp c8data).2.length),
        isSend ((price_checker c8resp c8data).2.get i) = true →
        isSave ((price_checker c8resp c8data).2.get j) = true →
        (j : Nat) < (i : Nat)) := by decide

/-- C8 (amended): in every cycle over a non-empty watchlist the mutated
watchlist is persisted exactly once, as the final event after all batches
— so every alert (dispatched in discovery order during batch processing)
is sent before the single save, not after it. -/
theorem c8_single_save_after_batches :
    ∀ (resp : List String → String → Option GameData) (data : Watchlist),
      data ≠ [] →
      (price_checker resp data).2.countP isSave = 1
      ∧ (price_checker resp data).2.getLast?
          = some (Event.save (price_checker resp data).1) := by
  intro resp data hd
  have hzero : (runChunks resp (chunks (data.map Prod.fst)) data).2.countP isSave = 0 := by
    rw [List.countP_eq_zero]
    intro e he hsave
    rw [runChunks_no_save resp (chunks (data.map Prod.fst)) data e he] at hsave
    exact Bool.noConfusion hsave
  refine ⟨?_, ?_⟩
  · simp only [price_checker, if_neg hd, List.countP_append]
    rw [hzero]
    rfl
  · simp only [price_checker, if_neg hd]
    rw [List.getLast?_concat]

/-- C8 witness: the one-game cycle saves exactly once. -/
theorem c8_witness : (price_checker c8resp c8data).2.countP isSave = 1 :=
  (c8_single_save_after_batches c8resp c8data (by decide)).1

/-- A fetched record where both channels dropped, for the C6 witness. -/
def c6GD : GameData :=
  { title := some "HL2", url := some "g"
    prices := { currentRetail := some "4.99", currentKeyshops := some "2.49"
                historicalRetail := some "4.99", historicalKeyshops := none
                currency := some "USD" } }

/-- C6 witness: stored retail `"9.99"` / keyshops `"4.50"`, fetched
`"4.99"` / `"2.49"` yields one send event bundling both drops. -/
theorem c6_witness :
    (processGame [("70", exStored)] (fun _ => some c6GD) "70").2
      = [Event.send "70" (gameAlertRecord exStored c6GD)] :=
  (c6_multi_channel_single_alert [("70", exStored)] (fun _ => some c6GD) "70"
    exStored c6GD "9.99" "4.99" "4.50" "2.49" ⟨999, 2⟩ ⟨499, 2⟩ ⟨450, 2⟩ ⟨249, 2⟩
    rfl rfl rfl rfl (by decide) (by decide)
    ((Decimal.blt_eq_true_iff _ _).mp (by decide))
    rfl rfl (by decide) (by decide)
    ((Decimal.blt_eq_true_iff _ _).mp (by decide))).1

/-! ### C9 — watch with an unknown key -/

/-- C9: a `!watch` on a key not yet on the watchlist for which the source
returns no record reports not-found, leaves the watchlist exactly as it
was, and performs no save. -/
theorem c9_watch_not_found :
    ∀ (data : Watchlist) (fetched : String → Option GameData)
      (app_id game_name author : String),
      wlookup data app_id = none → fetched app_id = none →
      watch_game data fetched app_id game_name author
        = (WatchResult.notFound, data, false) := by
  intro data fetched app_id game_name author hl hf
  simp [watch_game, hl, hf]

/-- C9 witness: watching an unknown key on a one-game watchlist reports
not-found with the watchlist untouched and no save. -/
theorem c9_witness :
    watch_game [("70", exStored)] (fun _ => none) "99" "" "me"
      = (WatchResult.notFound, [("70", exStored)], false) :=
  c9_watch_not_found [("70", exStored)] (fun _ => none) "99" "" "me" rfl rfl

/-! ### C10 — unwatch removes exactly the requested key -/

theorem wlookup_filter_self (data : Watchlist) (id : String) :
    wlookup (data.filter (fun kv => kv.1 ≠ id)) id = none := by
  induction data with
  | nil => rfl
  | cons kv tl ih =>
    obtain ⟨a, v⟩ := kv
    by_cases ha : a = id
    · simpa [List.filter, ha] using ih
    · have hne : ¬ id = a := fun hc => ha hc.symm
      simpa [List.filter, ha, wlookup_cons, hne] using ih

theorem wlookup_filter_other (data : Watchlist) (id k : String) (h : k ≠ id) :
    wlookup (data.filter (fun kv => kv.1 ≠ id)) k = wlookup data k := by
  induction data with
  | nil => rfl
  | cons kv tl ih =>
    obtain ⟨a, v⟩ := kv
    by_cases ha : a = id
    · have hka : ¬ k = a := fun hc => h (hc.trans ha)
      simpa [List.filter, ha, wlookup_cons, hka, h] using ih
    · by_cases hk : k = a
      · simp [List.filter, ha, wlookup_cons, hk]
      · simpa [List.filter, ha, wlookup_cons, hk] using ih

/-- C10: `!unwatch` on a watched key removes exactly that key — the
result reports the removed entry's name, a save occurs, the key is gone
from the saved watchlist, and every other key's entry is unchanged; on an
unwatched key it reports not-watched, leaves the watchlist untouched, and
performs no save. -/
theorem c10_unwatch_exact_removal :
    ∀ (data : Watchlist) (id : String),
      (wlookup data id = none →
        unwatch_game data id = (UnwatchResult.notWatched, data, false))
      ∧ ∀ e, wlookup data id = some e →
          (unwatch_game data id).1 = UnwatchResult.removed e.name
          ∧ (unwatch_game data id).2.2 = true
          ∧ wlookup (unwatch_game data id).2.1 id = none
          ∧ ∀ k, k ≠ id → wlookup (unwatch_game data id).2.1 k = wlookup data k := by
  intro data id
  constructor
  · intro hl
    simp [unwatch_game, hl]
  · intro e hl
    refine ⟨?_, ?_, ?_, ?_⟩
    · simp [unwatch_game, hl]
    · simp [unwatch_game, hl]
    · simp only [unwatch_game, hl]
      exact wlookup_filter_self data id
    · intro k hk
      simp only [unwatch_game, hl]
      exact wlookup_filter_other data id k hk

/-- C10 witness: unwatching the only key of a one-game watchlist reports
the removed name, saves, and leaves an empty watchlist. -/
theorem c10_witness :
    (unwatch_game [("70", exStored)] "70").1 = UnwatchResult.removed "HL2"
    ∧ (unwatch_game [("70", exStored)] "70").2.2 = true
    ∧ wlookup (unwatch_game [("70", exStored)] "70").2.1 "70" = none :=
  let h := (c10_unwatch_exact_removal [("70", exStored)] "70").2 exStored rfl
  ⟨h.1, h.2.1, h.2.2.1⟩
